/-
Verification of the chainsync-loadtest network multiplexer
(tools/chainsync-loadtest/src/network.rs) and the garbage-collection
configuration accessor (core/chain-configs/src/client_config.rs).

The Rust code is shallowly embedded: machine integers become `Nat`
(all the counters are monotone and never rely on wraparound),
`HashMap`s become association lists, `tokio::time::Instant` becomes a
`Nat` timestamp, `Once<T>` cells become `Option T`, logging becomes an
explicit output, and a Rust `panic` (an `unwrap` that can fail) makes
the embedded function return `none`.
-/
import Mathlib

set_option autoImplicit false

namespace ChainsyncLoadtest

/-- Peer identities are opaque; `PeerId` is embedded as `Nat`. -/
abbrev PeerId := Nat

/-- Content addresses (`CryptoHash`, `ChunkHash`) are opaque keys; embedded as `Nat`
in the network model.  (The genesis-hash table below models the actual bytes.) -/
abbrev Hash := Nat

/-! ## Garbage-collection configuration (core/chain-configs/src/client_config.rs) -/

/-- `MIN_GC_NUM_EPOCHS_TO_KEEP`: minimum number of epochs for which store data is kept. -/
def MIN_GC_NUM_EPOCHS_TO_KEEP : Nat := 3

/-- `DEFAULT_GC_NUM_EPOCHS_TO_KEEP`: default number of epochs for which store data is kept. -/
def DEFAULT_GC_NUM_EPOCHS_TO_KEEP : Nat := 5

/-- `GCConfig` from client_config.rs (fields embedded as `Nat`). -/
structure GCConfig where
  gc_blocks_limit : Nat
  gc_fork_clean_step : Nat
  gc_num_epochs_to_keep : Nat
  deriving DecidableEq, Repr

/-- `GCConfig::default()` from client_config.rs. -/
def GCConfig.default_config : GCConfig :=
  { gc_blocks_limit := 2
    gc_fork_clean_step := 100
    gc_num_epochs_to_keep := DEFAULT_GC_NUM_EPOCHS_TO_KEEP }

/-- The accessor `GCConfig::gc_num_epochs_to_keep(&self)`:
`max(MIN_GC_NUM_EPOCHS_TO_KEEP, self.gc_num_epochs_to_keep)`.
(Named with an `_m` suffix because in Lean the record field already
takes the source name.) -/
def GCConfig.gc_num_epochs_to_keep_m (c : GCConfig) : Nat :=
  max MIN_GC_NUM_EPOCHS_TO_KEEP c.gc_num_epochs_to_keep

/-! ## genesis_hash (network.rs lines 31-42)

`CryptoHash::from_str` does a bs58 decode of the string and requires the
result to be exactly 32 bytes; `CryptoHash::default()` is the all-zero
hash.  We embed the bs58 decoding so that the `.parse().unwrap()` in the
source is checked to actually succeed: the embedded `genesis_hash`
returns `none` exactly when the source would panic. -/

/-- The bs58 alphabet used by the `bs58` crate (Bitcoin alphabet). -/
def base58Alphabet : List Char :=
  "123456789ABCDEFGHJKLMNPQRSTUVWXYZabcdefghijkmnopqrstuvwxyz".toList

/-- Value of one base58 digit, `none` for a character outside the alphabet. -/
def base58DigitVal (c : Char) : Option Nat :=
  (base58Alphabet.indexOf? c).map (fun i => i)

/-- Interpret a character list as a big-endian base58 number. -/
def base58ToNat (cs : List Char) : Option Nat :=
  cs.foldlM (fun n c => (base58DigitVal c).map (fun d => n * 58 + d)) 0

/-- Number of leading '1' characters (each contributes a leading zero byte). -/
def countLeadingOnes : List Char → Nat
  | [] => 0
  | c :: cs => if c = '1' then countLeadingOnes cs + 1 else 0

/-- Big-endian minimal byte representation of a `Nat` (fuelled so that it
reduces in the kernel; 64 bytes of fuel is ample for 256-bit values). -/
def natToBytesBEAux : Nat → Nat → List Nat
  | 0, _ => []
  | _ + 1, 0 => []
  | fuel + 1, n => natToBytesBEAux fuel (n / 256) ++ [n % 256]

/-- Big-endian minimal byte representation of a `Nat`. -/
def natToBytesBE (n : Nat) : List Nat := natToBytesBEAux 64 n

/-- bs58 decode: leading-'1' zero bytes followed by the big-endian bytes of
the base58 number. -/
def bs58Decode (s : String) : Option (List Nat) :=
  (base58ToNat s.toList).map
    (fun n => List.replicate (countLeadingOnes s.toList) 0 ++ natToBytesBE n)

/-- `CryptoHash::from_str`: bs58 decode and require exactly 32 bytes. -/
def cryptoHashFromStr (s : String) : Option (List Nat) :=
  match bs58Decode s with
  | some bs => if bs.length = 32 then some bs else none
  | none => none

/-- `CryptoHash::default()`: the all-zero 32-byte hash. -/
def zeroHash : List Nat := List.replicate 32 0

/-- `genesis_hash(chain_id)` from network.rs: the three literal chains parse
their base58 literals (`.parse().unwrap()`, embedded as `Option`), every
other chain id returns the default (zero) hash. -/
def genesis_hash (chain_id : String) : Option (List Nat) :=
  match chain_id with
  | "mainnet" => cryptoHashFromStr "EPnLgE7iEq9s7yTkos96M3cWymH5avBAPm3qx3NXqR8H"
  | "testnet" => cryptoHashFromStr "FWJ9kR6KFWoyMoNjpLXXGHeuiy7tEY6GmoFeCA5yuc6b"
  | "betanet" => cryptoHashFromStr "6hy7VoEJhPEUaJr1d5ePBhKdgeDWKCjLoUAn7XS9YPj"
  | _ => some zeroHash

/-- The decoded mainnet genesis hash bytes. -/
def mainnetHash : List Nat :=
  [198, 253, 249, 28, 142, 130, 248, 249, 23, 204, 25, 117, 233, 222, 28, 100,
   190, 17, 137, 158, 50, 29, 253, 245, 254, 188, 251, 183, 49, 63, 20, 134]

/-- The decoded testnet genesis hash bytes. -/
def testnetHash : List Nat :=
  [215, 132, 218, 90, 158, 94, 102, 102, 133, 22, 193, 154, 128, 149, 68, 143,
   197, 74, 34, 162, 137, 113, 220, 51, 15, 0, 153, 223, 148, 55, 148, 16]

/-- The decoded betanet genesis hash bytes. -/
def betanetHash : List Nat :=
  [1, 118, 57, 224, 214, 51, 206, 71, 109, 12, 126, 70, 60, 77, 14, 116,
   253, 137, 76, 173, 18, 92, 103, 226, 18, 144, 209, 6, 66, 38, 242, 18]

/-! ## keep_sending per-peer step (network.rs lines 245-262)

One iteration of the inner per-peer loop, from the point where the
transport acknowledgement has arrived.  The effect on the atomic
counters and the control decision are embedded; the transport itself
and the `Ctx` machinery stay abstract. -/

/-- The transport acknowledgement (`NetworkResponses` as matched by
`keep_sending`): `NoResponse`, `RouteNotFound`, or any other variant
(abstracted by a tag). -/
inductive Ack where
  | noResponse
  | routeNotFound
  | otherAck (tag : Nat)
  deriving DecidableEq, Repr

/-- What the loop does after processing one acknowledgement. -/
inductive SendOutcome where
  /-- proceed to the next peer after `ctx.wait(request_timeout)` of the given duration (seconds) -/
  | waitThenNext (timeout_secs : Nat)
  /-- proceed to the next peer immediately -/
  | nextNoWait
  /-- return an error tagged with the unexpected ack; the loop terminates -/
  | errorReturn (tag : Nat)
  deriving DecidableEq, Repr

/-- The sent/failed counters of `Stats` touched by `keep_sending`. -/
structure SendStats where
  msgs_sent : Nat
  msgs_send_failures : Nat
  deriving DecidableEq, Repr

/-- `request_timeout` as set in `Network::new`: `Duration::from_secs(10)`. -/
def new_request_timeout_secs : Nat := 10

/-- One per-peer iteration of `keep_sending` after the ack arrives
(the `match send.await?` at network.rs lines 252-261), parameterised by
the configured `request_timeout`. -/
def keep_sending_step (request_timeout : Nat) (s : SendStats) (ack : Ack) :
    SendStats × SendOutcome :=
  match ack with
  | .noResponse =>
      ({ s with msgs_sent := s.msgs_sent + 1 }, .waitThenNext request_timeout)
  | .routeNotFound =>
      ({ s with msgs_send_failures := s.msgs_send_failures + 1 }, .nextNoWait)
  | .otherAck tag => (s, .errorReturn tag)

/-! ## fetch_chunk request builder (network.rs lines 358-368) -/

/-- `PartialEncodedChunkRequestMsg` (tracking_shards is a set of shard ids,
embedded as a list; `Default::default()` is the empty set). -/
structure PartialEncodedChunkRequestMsg where
  chunk_hash : Hash
  part_ords : List Nat
  tracking_shards : List Nat
  deriving DecidableEq, Repr

/-- The outbound `NetworkRequests` variants produced by the three fetchers. -/
inductive NetworkRequests where
  | blockHeadersRequest (hashes : List Hash) (peer_id : PeerId)
  | blockRequest (hash : Hash) (peer_id : PeerId)
  | partialEncodedChunkRequest (target : PeerId) (request : PartialEncodedChunkRequestMsg)
  deriving DecidableEq, Repr

/-- The request builder closure handed by `fetch_chunk` to `keep_sending`:
for a peer, a `PartialEncodedChunkRequest` targeting that peer with the
chunk hash of the header, `part_ords = (0..parts_per_chunk).collect()`
and empty `tracking_shards`. -/
def fetch_chunk_new_req (parts_per_chunk : Nat) (chunk_hash : Hash) (peer : PeerId) :
    NetworkRequests :=
  .partialEncodedChunkRequest peer
    { chunk_hash := chunk_hash
      part_ords := List.range parts_per_chunk
      tracking_shards := [] }

/-! ## SendTimes and statistics (network.rs lines 44-144)

`HashMap`s are embedded as association lists with unique keys kept in
insertion order; `entry(k).or_default()` / `or_insert_with` become
update-in-place-or-append on the list.  `tokio::time::Instant` is a
`Nat` timestamp; `Instant::now() - t` becomes `now - t` with the
current time `now` passed explicitly. -/

/-- `PeerStats` (all counters start at zero: `#[derive(Default)]`). -/
structure PeerStats where
  requests : Nat
  responses : Nat
  total_latency : Nat
  deriving DecidableEq, Repr

/-- `PeerStats::default()`. -/
def PeerStats.zero : PeerStats := ⟨0, 0, 0⟩

/-- `RequestStats` (all counters start at zero). -/
structure RequestStats where
  requests : Nat
  total_sends : Nat
  total_latency : Nat
  deriving DecidableEq, Repr

/-- `PeerStatsMap`: the request-level counters and the per-peer map
(the two `Mutex`es of the source become the two components; the code
takes them one after the other, never nested). -/
structure PeerStatsMap where
  requests : RequestStats
  peers : List (PeerId × PeerStats)
  deriving DecidableEq, Repr

/-- `ps.entry(p).or_default()` followed by the update `f`: modify the
entry in place when the key is present, otherwise append `f` of the
default entry. -/
def updateEntry : List (PeerId × PeerStats) → PeerId → (PeerStats → PeerStats) →
    List (PeerId × PeerStats)
  | [], q, f => [(q, f PeerStats.zero)]
  | (k, v) :: t, q, f =>
      if k = q then (k, f v) :: t else (k, v) :: updateEntry t q f

/-- The per-peer stats seen through the map (absent peers read as default). -/
def statsAt (ps : List (PeerId × PeerStats)) (p : PeerId) : PeerStats :=
  (ps.lookup p).getD PeerStats.zero

/-- `SendTimes`: the atomic total send counter and the map from peer to
the instant of the first send to that peer. -/
structure SendTimes where
  sends : Nat
  times : List (PeerId × Nat)
  deriving DecidableEq, Repr

/-- `SendTimes::register`: increment `sends`; insert `(peer, now)` iff the
peer is absent (`entry(..).or_insert_with(Instant::now)`). -/
def SendTimes.register (st : SendTimes) (p : PeerId) (now : Nat) : SendTimes :=
  { sends := st.sends + 1
    times := if (st.times.lookup p).isSome then st.times else st.times ++ [(p, now)] }

/-- `SendTimes::get_peers`: the keys of `times`. -/
def SendTimes.get_peers (st : SendTimes) : List PeerId :=
  st.times.map Prod.fst

/-- `SendTimes::latency`: `now - times[peer]` when present. -/
def SendTimes.latency (st : SendTimes) (p : PeerId) (now : Nat) : Option Nat :=
  (st.times.lookup p).map (fun t => now - t)

/-- `PeerStatsMap::add_response_time(send_times, peer_id)` at time `now`.
First block (under the `requests` lock): bump `requests`, add `sends`,
and add `now - min(times.values())` to `total_latency` when `times` is
non-empty.  Second block (under the `peers` lock, taken only after the
first is released): bump `requests` for every peer in `times`; then if
`latency(peer_id)` is present bump that peer's `responses` and add the
latency, else bump `responses` only and emit a warning.  The returned
`Bool` records whether the "response without request" warning fired. -/
def PeerStatsMap.add_response_time (m : PeerStatsMap) (st : SendTimes) (peer : PeerId)
    (now : Nat) : PeerStatsMap × Bool :=
  let rs :=
    { requests := m.requests.requests + 1
      total_sends := m.requests.total_sends + st.sends
      total_latency :=
        match (st.times.map Prod.snd).min? with
        | some t => m.requests.total_latency + (now - t)
        | none => m.requests.total_latency }
  let ps := st.get_peers.foldl
    (fun ps p => updateEntry ps p (fun s => { s with requests := s.requests + 1 }))
    m.peers
  match st.latency peer now with
  | some l =>
      (⟨rs, updateEntry ps peer
        (fun s => { s with responses := s.responses + 1,
                           total_latency := s.total_latency + l })⟩, false)
  | none =>
      (⟨rs, updateEntry ps peer (fun s => { s with responses := s.responses + 1 })⟩, true)

/-! ## The Network inbound path: `notify` (network.rs lines 378-418) and `info`
(lines 269-281)

A live `Request<T>` consists of its `SendTimes` and its `Once<T>` cell; a
`Once<T>` is embedded as `Option T` (`set` succeeds iff the cell is empty).
Each `WeakMap` is embedded as the association list of its currently live
requests; `once.set` mutates the shared request, which the embedding
renders as an in-place update of the entry.

An `info(ctx)` waiter queued in `info_futures` is a oneshot sender whose
receiver side may have been dropped by `ctx` cancellation; delivering into
a dropped receiver makes `oneshot::Sender::send` return `Err`, and the
source calls `.unwrap()` on it, i.e. panics.  The embedded `notify`
therefore returns `none` exactly when the source panics. -/

/-- A block: its content address and an abstract body. -/
structure BlockM where
  hash : Hash
  body : Nat
  deriving DecidableEq, Repr

/-- A block header: its height and the hash of its predecessor
(only the fields `notify` reads). -/
structure Header where
  height : Nat
  prev_hash : Hash
  deriving DecidableEq, Repr

/-- `PartialEncodedChunkResponseMsg`: the chunk hash and an abstract payload. -/
structure ChunkResp where
  chunk_hash : Hash
  payload : Nat
  deriving DecidableEq, Repr

/-- A live `Request<T>`: shared send times and the `Once<T>` cell. -/
structure RequestM (T : Type) where
  send_times : SendTimes
  once : Option T
  deriving DecidableEq, Repr

/-- `NetworkInfo` (only the field the model reads, plus an abstract snapshot
identity so distinct snapshots can be told apart). -/
structure NetworkInfoM where
  num_connected_peers : Nat
  snapshot_id : Nat
  deriving DecidableEq, Repr

/-- A oneshot sender queued in `info_futures`: `alive` is false when the
receiver side was dropped (the `info` caller's ctx cancelled). -/
structure Waiter where
  id : Nat
  alive : Bool
  deriving DecidableEq, Repr

/-- Update the live request stored under key `k` (in the source, `once.set`
mutates the request shared through the `Arc`). -/
def updateReq {T : Type} (m : List (Hash × RequestM T)) (k : Hash) (r : RequestM T) :
    List (Hash × RequestM T) :=
  m.map (fun kv => if kv.1 = k then (k, r) else kv)

/-- The mutable state of `Network` touched by `notify`/`info`:
the `msgs_recv` counter, the per-peer stats, the three weak maps (as their
live entries), the current `NetworkInfo` snapshot, the queued `info`
waiters, and `min_peers`.  `delivered` logs oneshot deliveries
`(waiter id, snapshot)` and `warnings` counts `warn!` emissions. -/
structure NetworkState where
  msgs_recv : Nat
  stats_peers : PeerStatsMap
  blocks : List (Hash × RequestM BlockM)
  block_headers : List (Hash × RequestM (List Header))
  chunks : List (Hash × RequestM ChunkResp)
  info_ : NetworkInfoM
  info_futures : List Waiter
  min_peers : Nat
  delivered : List (Nat × NetworkInfoM)
  warnings : Nat
  deriving DecidableEq, Repr

/-- The inbound `NetworkClientMessages` handled by `notify`. -/
inductive ClientMsg where
  | networkInfo (info : NetworkInfoM)
  | block (b : BlockM) (peer : PeerId)
  | blockHeaders (headers : List Header) (peer : PeerId)
  | partialEncodedChunkResponse (resp : ChunkResp) (peer : PeerId)
  | otherMsg
  deriving DecidableEq, Repr

/-- Rust `headers.iter().min_by_key(|h| h.height())`: the first header of
minimum height (`min_by_key` keeps the earlier element on ties). -/
def min_by_height (hs : List Header) : Option Header :=
  hs.foldl
    (fun acc h =>
      match acc with
      | none => some h
      | some m => if h.height < m.height then some h else some m)
    none

/-- Deliver the new snapshot to each queued sender in order
(`for s in n.info_futures.split_off(0) { s.send(..).unwrap() }`):
`none` when a dropped receiver is hit (the `unwrap` panics), otherwise
the list of deliveries made. -/
def deliverAll (i : NetworkInfoM) : List Waiter → Option (List (Nat × NetworkInfoM))
  | [] => some []
  | w :: ws => if w.alive then (deliverAll i ws).map (fun ds => (w.id, i) :: ds) else none

/-- Resolving one weak-map hit (shared shape of the `Block`, `BlockHeaders`
and `PartialEncodedChunkResponse` arms): attempt `once.set(v)`; on success
record the response time against `peer`.  Returns the updated request,
updated stats, and warning increment; `none` components mean the set lost. -/
def resolveOnce {T : Type} (r : RequestM T) (v : T) (peer : PeerId) (now : Nat)
    (sp : PeerStatsMap) : RequestM T × PeerStatsMap × Nat :=
  match r.once with
  | none =>
      let (sp', warned) := sp.add_response_time r.send_times peer now
      ({ r with once := some v }, sp', if warned then 1 else 0)
  | some _ => (r, sp, 0)

/-- `Network::notify(msg)` at time `now`: bump `msgs_recv` and dispatch.
Returns `none` exactly when the source panics (the `unwrap` on a oneshot
send to a dropped receiver). -/
def notify (s : NetworkState) (msg : ClientMsg) (now : Nat) : Option NetworkState :=
  let s := { s with msgs_recv := s.msgs_recv + 1 }
  match msg with
  | .networkInfo i =>
      let s := { s with info_ := i }
      if i.num_connected_peers < s.min_peers then
        some s
      else
        match deliverAll i s.info_futures with
        | some ds => some { s with info_futures := [], delivered := s.delivered ++ ds }
        | none => none
  | .block b peer =>
      match s.blocks.lookup b.hash with
      | none => some s
      | some r =>
          let (r', sp', w) := resolveOnce r b peer now s.stats_peers
          some { s with blocks := updateReq s.blocks b.hash r',
                        stats_peers := sp', warnings := s.warnings + w }
  | .blockHeaders hs peer =>
      match min_by_height hs with
      | none => some s
      | some hmin =>
          match s.block_headers.lookup hmin.prev_hash with
          | none => some s
          | some r =>
              let (r', sp', w) := resolveOnce r hs peer now s.stats_peers
              some { s with block_headers := updateReq s.block_headers hmin.prev_hash r',
                            stats_peers := sp', warnings := s.warnings + w }
  | .partialEncodedChunkResponse resp peer =>
      match s.chunks.lookup resp.chunk_hash with
      | none => some s
      | some r =>
          let (r', sp', w) := resolveOnce r resp peer now s.stats_peers
          some { s with chunks := updateReq s.chunks resp.chunk_hash r',
                        stats_peers := sp', warnings := s.warnings + w }
  | .otherMsg => some s

/-- `Network::info(ctx)` up to its first suspension: under the data lock,
if enough peers are connected the snapshot is sent on the fresh channel
(the caller receives it immediately), otherwise the sender is pushed onto
`info_futures`.  Returns the state and the immediate result. -/
def info_call (s : NetworkState) (waiter_id : Nat) : NetworkState × Option NetworkInfoM :=
  if s.min_peers ≤ s.info_.num_connected_peers then
    (s, some s.info_)
  else
    ({ s with info_futures := s.info_futures ++ [⟨waiter_id, true⟩] }, none)

/-- Modelled from the spec: `Ctx::wrap` (crate::concurrency, not under src/)
returns the cancellation error and drops the wrapped future when the
context cancels; for a queued `info` waiter this drops the oneshot
receiver, releasing the caller without delivery while its sender stays in
`info_futures`. -/
def cancel_waiter (s : NetworkState) (waiter_id : Nat) : NetworkState :=
  { s with info_futures :=
      s.info_futures.map (fun w => if w.id = waiter_id then { w with alive := false } else w) }

/-! ## Request coalescing: WeakMap and Once

`WeakMap` and `Once` live in `crate::concurrency`, which is not part of
the sources under verification; they are modelled from the spec.  The
spec makes `get_or_insert` atomic, so concurrent callers linearize into a
sequence of atomic `get_or_insert` operations; callers that overlap in
time all hold strong handles, so no entry is removed between their
operations. -/

/-- Modelled from the spec: the state of one `WeakMap<K, Request<T>>`
restricted to live entries (`crate::concurrency::WeakMap` is not under
src/).  Requests are identified by the `Nat` id the factory would
allocate; `factory_calls` counts factory invocations. -/
structure WMState where
  entries : List (Hash × Nat)
  next_id : Nat
  factory_calls : Nat
  deriving DecidableEq, Repr

/-- Modelled from the spec: `WeakMap::get_or_insert(k, factory)` — atomic;
return the live entry for `k` when one exists, else invoke the factory
exactly once, install the new request and return it. -/
def get_or_insert (st : WMState) (k : Hash) : Nat × WMState :=
  match st.entries.lookup k with
  | some r => (r, st)
  | none =>
      (st.next_id,
        { entries := st.entries ++ [(k, st.next_id)]
          next_id := st.next_id + 1
          factory_calls := st.factory_calls + 1 })

/-- `n` overlapping callers of `fetch_X(k)`, linearized: each performs one
atomic `get_or_insert(k)`; no entry is dropped in between because every
caller still holds its strong handle.  Returns the handle each caller got. -/
def run_callers (st : WMState) (k : Hash) : Nat → List Nat × WMState
  | 0 => ([], st)
  | n + 1 =>
      let (r, st') := get_or_insert st k
      let (rs, st'') := run_callers st' k n
      (r :: rs, st'')

/-- Modelled from the spec: `Once::set(v)` — atomic; only the first call
succeeds (`crate::concurrency::Once` is not under src/). -/
def once_set {T : Type} (cell : Option T) (v : T) : Option T × Bool :=
  match cell with
  | none => (some v, true)
  | some w => (some w, false)

/-- A sequence of `once.set` attempts on one cell, linearized; returns the
final cell and how many attempts succeeded. -/
def once_set_all {T : Type} (cell : Option T) : List T → Option T × Nat
  | [] => (cell, 0)
  | v :: vs =>
      let (cell', ok) := once_set cell v
      let (cell'', c) := once_set_all cell' vs
      (cell'', (if ok then 1 else 0) + c)

/-- Modelled from the spec: `Once::wait()` — returns a clone of the stored
value once set; every waiter on the same cell reads the same value. -/
def once_wait {T : Type} (cell : Option T) : Option T := cell

/-! ## FakeClientActor view-client handler (network.rs lines 435-471) -/

/-- The `NetworkViewClientMessages` variants (payloads abstracted away;
`notify` never reads them in this handler). -/
inductive ViewMsg where
  | txStatus
  | txStatusResponse
  | receiptOutcomeRequest
  | receiptOutcomeResponse
  | blockRequest
  | blockHeadersRequest
  | stateRequestHeader
  | stateRequestPart
  | epochSyncRequest
  | epochSyncFinalizationRequest
  | getChainInfo
  | announceAccount
  deriving DecidableEq, Repr

/-- `GenesisId` (the hash as decoded bytes). -/
structure GenesisId where
  chain_id : String
  hash : List Nat
  deriving DecidableEq, Repr

/-- The `NetworkViewClientResponses` variants this handler produces. -/
inductive ViewResponse where
  | chainInfo (genesis_id : GenesisId) (height : Nat) (tracked_shards : List Nat)
      (archival : Bool)
  | noResponse
  deriving DecidableEq, Repr

/-- The name string the handler binds for each fall-through variant
(note the source's "ReceiptOutputResponse" spelling). -/
def viewMsgName : ViewMsg → String
  | .txStatus => "TxStatus"
  | .txStatusResponse => "TxStatusResponse"
  | .receiptOutcomeRequest => "ReceiptOutcomeRequest"
  | .receiptOutcomeResponse => "ReceiptOutputResponse"
  | .blockRequest => "BlockRequest"
  | .blockHeadersRequest => "BlockHeadersRequest"
  | .stateRequestHeader => "StateRequestHeader"
  | .stateRequestPart => "StateRequestPart"
  | .epochSyncRequest => "EpochSyncRequest"
  | .epochSyncFinalizationRequest => "EpochSyncFinalizationRequest"
  | .getChainInfo => "GetChainInfo"
  | .announceAccount => "AnnounceAccount"

/-- `FakeClientActor`'s `Handler<NetworkViewClientMessages>::handle`:
`GetChainInfo` returns early with the canned `ChainInfo`
(`genesis_hash(chain_id)` is unwrapped, so the embedding is `Option`);
`AnnounceAccount` returns early with `NoResponse` and no log; every other
variant falls through to `info!("view_request: {}", name)` and returns
`NoResponse`.  The second component is the list of log lines emitted. -/
def fake_client_handle (chain_id : String) (msg : ViewMsg) :
    Option (ViewResponse × List String) :=
  match msg with
  | .getChainInfo =>
      (genesis_hash chain_id).map
        (fun h =>
          (.chainInfo { chain_id := chain_id, hash := h } 0 [] false, []))
  | .announceAccount => some (.noResponse, [])
  | m => some (.noResponse, ["view_request: " ++ viewMsgName m])

/-! ## Helper lemmas -/

theorem nat_lookup_cons (p k : Nat) {β : Type} (v : β) (t : List (Nat × β)) :
    ((k, v) :: t).lookup p = if p = k then some v else t.lookup p := by
  by_cases h : p = k
  · subst h; simp [List.lookup]
  · have hb : (p == k) = false := by simp [h]
    simp [List.lookup, hb, h]

theorem lookup_updateEntry (ps : List (PeerId × PeerStats)) (q : PeerId)
    (f : PeerStats → PeerStats) (p : PeerId) :
    (updateEntry ps q f).lookup p = if p = q then some (f (statsAt ps q)) else ps.lookup p := by
  induction ps with
  | nil =>
      by_cases hpq : p = q
      · subst hpq; simp [updateEntry, statsAt, nat_lookup_cons, List.lookup]
      · simp [updateEntry, statsAt, nat_lookup_cons, hpq]
  | cons kv t ih =>
      obtain ⟨k, v⟩ := kv
      by_cases hkq : k = q
      · subst hkq
        by_cases hpk : p = k
        · subst hpk
          simp [updateEntry, statsAt, nat_lookup_cons]
        · simp [updateEntry, statsAt, nat_lookup_cons, hpk]
      · have hq : statsAt ((k, v) :: t) q = statsAt t q := by
          have : q ≠ k := fun h => hkq h.symm
          simp [statsAt, nat_lookup_cons, this]
        by_cases hpk : p = k
        · subst hpk
          have hpq : p ≠ q := hkq
          simp [updateEntry, hkq, nat_lookup_cons, hpq]
        · simp [updateEntry, hkq, nat_lookup_cons, hpk, ih, hq]

theorem statsAt_updateEntry (ps : List (PeerId × PeerStats)) (q : PeerId)
    (f : PeerStats → PeerStats) (p : PeerId) :
    statsAt (updateEntry ps q f) p = if p = q then f (statsAt ps q) else statsAt ps p := by
  simp only [statsAt, lookup_updateEntry]
  split <;> simp [statsAt]

/-- Effect of the per-peer `requests` bump fold on the stats read at `p`. -/
theorem statsAt_foldl_bump (l : List PeerId) (ps : List (PeerId × PeerStats)) (p : PeerId)
    (hnd : l.Nodup) :
    statsAt (l.foldl
      (fun ps q => updateEntry ps q (fun s => { s with requests := s.requests + 1 })) ps) p
    = if p ∈ l then
        { statsAt ps p with requests := (statsAt ps p).requests + 1 }
      else statsAt ps p := by
  induction l generalizing ps with
  | nil => simp
  | cons q t ih =>
      have hq : q ∉ t := (List.nodup_cons.mp hnd).1
      have hnd' : t.Nodup := (List.nodup_cons.mp hnd).2
      simp only [List.foldl_cons, ih _ hnd']
      by_cases hpt : p ∈ t
      · have hpq : p ≠ q := fun h => hq (h ▸ hpt)
        simp [hpt, hpq, statsAt_updateEntry, List.mem_cons]
      · by_cases hpq : p = q
        · subst hpq
          simp [hpt, statsAt_updateEntry]
        · simp [hpt, hpq, statsAt_updateEntry, List.mem_cons]

theorem lookup_append_absent (l : List (Hash × Nat)) (k : Hash) (v : Nat)
    (h : l.lookup k = none) : (l ++ [(k, v)]).lookup k = some v := by
  induction l with
  | nil => simp [List.lookup]
  | cons kv t ih =>
      obtain ⟨k', v'⟩ := kv
      by_cases hk : k = k'
      · subst hk; simp [nat_lookup_cons] at h
      · simp only [List.cons_append, nat_lookup_cons, hk, if_false] at h ⊢
        exact ih h

theorem run_callers_hit (st : WMState) (k : Hash) (r : Nat)
    (h : st.entries.lookup k = some r) :
    ∀ n, run_callers st k n = (List.replicate n r, st) := by
  intro n
  induction n with
  | zero => simp [run_callers]
  | succ m ih => simp [run_callers, get_or_insert, h, ih, List.replicate]

theorem once_set_all_of_set {T : Type} (w : T) (vs : List T) :
    once_set_all (some w) vs = (some w, 0) := by
  induction vs with
  | nil => rfl
  | cons v t ih => simp [once_set_all, once_set, ih]

/-- The fold inside `min_by_height`, started from `some m`, returns an
element of `m :: t` of minimal height among `m :: t`. -/
theorem min_by_height_aux (t : List Header) (m : Header) :
    ∃ m', (t.foldl
        (fun acc h =>
          match acc with
          | none => some h
          | some m => if h.height < m.height then some h else some m)
        (some m)) = some m'
      ∧ m' ∈ m :: t ∧ m'.height ≤ m.height ∧ ∀ h ∈ t, m'.height ≤ h.height := by
  induction t generalizing m with
  | nil => exact ⟨m, rfl, by simp, le_refl _, by simp⟩
  | cons h t ih =>
      by_cases hlt : h.height < m.height
      · obtain ⟨m', heq, hmem, hle, hall⟩ := ih h
        refine ⟨m', ?_, ?_, ?_, ?_⟩
        · simpa [hlt] using heq
        · rcases List.mem_cons.mp hmem with h1 | h1
          · exact List.mem_cons.mpr (Or.inr (List.mem_cons.mpr (Or.inl h1)))
          · exact List.mem_cons.mpr (Or.inr (List.mem_cons.mpr (Or.inr h1)))
        · exact le_trans hle (le_of_lt hlt)
        · intro x hx
          rcases List.mem_cons.mp hx with h1 | h1
          · exact h1 ▸ hle
          · exact hall x h1
      · obtain ⟨m', heq, hmem, hle, hall⟩ := ih m
        refine ⟨m', ?_, ?_, hle, ?_⟩
        · simpa [hlt] using heq
        · rcases List.mem_cons.mp hmem with h1 | h1
          · exact List.mem_cons.mpr (Or.inl h1)
          · exact List.mem_cons.mpr (Or.inr (List.mem_cons.mpr (Or.inr h1)))
        · intro x hx
          rcases List.mem_cons.mp hx with h1 | h1
          · exact h1 ▸ (le_trans hle (Nat.le_of_not_lt hlt))
          · exact hall x h1

theorem min_by_height_spec (hs : List Header) (hne : hs ≠ []) :
    ∃ hmin, min_by_height hs = some hmin ∧ hmin ∈ hs ∧ ∀ h ∈ hs, hmin.height ≤ h.height := by
  cases hs with
  | nil => exact absurd rfl hne
  | cons h t =>
      obtain ⟨m', heq, hmem, hle, hall⟩ := min_by_height_aux t h
      refine ⟨m', ?_, hmem, ?_⟩
      · simpa [min_by_height] using heq
      · intro x hx
        rcases List.mem_cons.mp hx with h1 | h1
        · exact h1 ▸ hle
        · exact hall x h1

theorem lookup_updateReq {T : Type} (m : List (Hash × RequestM T)) (k : Hash)
    (r' : RequestM T) (hsome : (m.lookup k).isSome) :
    (updateReq m k r').lookup k = some r' := by
  induction m with
  | nil => simp [List.lookup] at hsome
  | cons kv t ih =>
      obtain ⟨k', v⟩ := kv
      by_cases hk : k' = k
      · subst hk; simp [updateReq, nat_lookup_cons]
      · have hkk : k ≠ k' := fun h => hk h.symm
        simp only [nat_lookup_cons, hkk, if_false] at hsome
        simp only [updateReq, List.map_cons, hk, if_false, nat_lookup_cons, hkk]
        exact ih hsome

theorem updateReq_idem {T : Type} (m : List (Hash × RequestM T)) (k : Hash)
    (r' : RequestM T) : updateReq (updateReq m k r') k r' = updateReq m k r' := by
  induction m with
  | nil => simp [updateReq]
  | cons kv t ih =>
      obtain ⟨k', v⟩ := kv
      by_cases hk : k' = k
      · subst hk; simpa [updateReq] using ih
      · simpa [updateReq, hk] using ih

theorem map_ite_id {T : Type} (t : List (Hash × RequestM T)) (k : Hash) (r : RequestM T)
    (hnot : ∀ kv ∈ t, kv.1 ≠ k) :
    t.map (fun kv => if kv.1 = k then (k, r) else kv) = t := by
  induction t with
  | nil => rfl
  | cons kv t ih =>
      have hk : kv.1 ≠ k := hnot kv (List.mem_cons_self kv t)
      have ht : ∀ x ∈ t, x.1 ≠ k := fun x hx => hnot x (List.mem_cons.mpr (Or.inr hx))
      simp [hk, ih ht]

/-- With unique keys (as in the source's `HashMap`), rewriting the entry at
`k` with the value already stored there is a no-op. -/
theorem updateReq_self {T : Type} (m : List (Hash × RequestM T)) (k : Hash) (r : RequestM T)
    (hnd : (m.map Prod.fst).Nodup) (h : m.lookup k = some r) : updateReq m k r = m := by
  induction m with
  | nil => simp [List.lookup] at h
  | cons kv t ih =>
      obtain ⟨k', v⟩ := kv
      by_cases hk : k = k'
      · subst hk
        have hv : v = r := by simpa [nat_lookup_cons] using h
        subst hv
        have hknot : k ∉ t.map Prod.fst := by
          simpa using (List.nodup_cons.mp hnd).1
        have ht : ∀ x ∈ t, x.1 ≠ k := by
          intro x hx hxk
          exact hknot (hxk ▸ List.mem_map_of_mem Prod.fst hx)
        simp [updateReq, map_ite_id t k v ht]
      · have hk' : k' ≠ k := fun hh => hk hh.symm
        have hlt : t.lookup k = some r := by simpa [nat_lookup_cons, hk] using h
        have hnd' : (t.map Prod.fst).Nodup := (List.nodup_cons.mp hnd).2
        have := ih hnd' hlt
        simpa [updateReq, hk'] using this

theorem deliverAll_all_alive (i : NetworkInfoM) (ws : List Waiter)
    (h : ∀ w ∈ ws, w.alive = true) :
    deliverAll i ws = some (ws.map (fun w => (w.id, i))) := by
  induction ws with
  | nil => rfl
  | cons w t ih =>
      have hw : w.alive = true := h w (List.mem_cons_self w t)
      have ht : ∀ x ∈ t, x.alive = true := fun x hx => h x (List.mem_cons.mpr (Or.inr hx))
      simp [deliverAll, hw, ih ht]

theorem deliverAll_dropped (i : NetworkInfoM) (ws : List Waiter)
    (h : ∃ w ∈ ws, w.alive = false) : deliverAll i ws = none := by
  induction ws with
  | nil => simp at h
  | cons w t ih =>
      obtain ⟨x, hx, hdead⟩ := h
      rcases List.mem_cons.mp hx with h1 | h1
      · subst h1; simp [deliverAll, hdead]
      · by_cases hw : w.alive
        · simp [deliverAll, hw, ih ⟨x, h1, hdead⟩]
        · simp [deliverAll, hw]

theorem min?_nonempty_spec (l : List Nat) (hne : l ≠ []) :
    ∃ t, l.min? = some t ∧ ∀ u ∈ l, t ≤ u := by
  cases l with
  | nil => exact absurd rfl hne
  | cons a as =>
      have h : (a :: as).min? = some (as.foldl min a) := rfl
      exact ⟨_, h, (List.min?_eq_some_iff'.mp h).2⟩

/-- The first block of `add_response_time` as one record. -/
theorem arp_requests_eq (m : PeerStatsMap) (st : SendTimes) (peer : PeerId) (now : Nat) :
    (m.add_response_time st peer now).1.requests
      = { requests := m.requests.requests + 1
          total_sends := m.requests.total_sends + st.sends
          total_latency :=
            match (st.times.map Prod.snd).min? with
            | some t => m.requests.total_latency + (now - t)
            | none => m.requests.total_latency } := by
  cases hl : st.latency peer now <;> simp [PeerStatsMap.add_response_time, hl]

/-- The second block of `add_response_time` as one map expression. -/
theorem arp_peers_eq (m : PeerStatsMap) (st : SendTimes) (peer : PeerId) (now : Nat) :
    (m.add_response_time st peer now).1.peers
      = updateEntry
          (st.get_peers.foldl
            (fun ps p => updateEntry ps p (fun s => { s with requests := s.requests + 1 }))
            m.peers)
          peer
          (match st.latency peer now with
           | some l => fun s =>
               { s with responses := s.responses + 1, total_latency := s.total_latency + l }
           | none => fun s => { s with responses := s.responses + 1 }) := by
  cases hl : st.latency peer now <;> simp [PeerStatsMap.add_response_time, hl]

/-- The warning flag of `add_response_time` fires iff the responder has no
recorded send. -/
theorem arp_warned_eq (m : PeerStatsMap) (st : SendTimes) (peer : PeerId) (now : Nat) :
    (m.add_response_time st peer now).2 = (st.latency peer now).isNone := by
  cases hl : st.latency peer now <;> simp [PeerStatsMap.add_response_time, hl]

/-- The per-peer `requests` bump fold leaves the `responses` and
`total_latency` fields untouched. -/
theorem statsAt_foldl_bump_other (l : List PeerId) (ps : List (PeerId × PeerStats))
    (p : PeerId) (hnd : l.Nodup) :
    (statsAt (l.foldl
      (fun ps q => updateEntry ps q (fun s => { s with requests := s.requests + 1 })) ps) p).responses
      = (statsAt ps p).responses
    ∧ (statsAt (l.foldl
      (fun ps q => updateEntry ps q (fun s => { s with requests := s.requests + 1 })) ps) p).total_latency
      = (statsAt ps p).total_latency := by
  rw [statsAt_foldl_bump _ _ _ hnd]
  split <;> simp

/-! ## Claim theorems -/

/-- C10: for every `GCConfig`, the accessor `gc_num_epochs_to_keep()` returns
at least `MIN_GC_NUM_EPOCHS_TO_KEEP = 3`, clamping any smaller configured
field up to that minimum and returning larger configured values unchanged. -/
theorem claim_gc_num_epochs_to_keep_clamped (c : GCConfig) :
    MIN_GC_NUM_EPOCHS_TO_KEEP = 3
    ∧ 3 ≤ c.gc_num_epochs_to_keep_m
    ∧ (c.gc_num_epochs_to_keep ≤ 3 → c.gc_num_epochs_to_keep_m = 3)
    ∧ (3 ≤ c.gc_num_epochs_to_keep → c.gc_num_epochs_to_keep_m = c.gc_num_epochs_to_keep) := by
  unfold GCConfig.gc_num_epochs_to_keep_m MIN_GC_NUM_EPOCHS_TO_KEEP
  refine ⟨rfl, Nat.le_max_left _ _, fun h => ?_, fun h => ?_⟩ <;> omega

/-- C10 witness: a field of 1 is clamped up to 3; a field of 7 is returned
unchanged. -/
theorem claim_gc_num_epochs_to_keep_clamped_witness :
    GCConfig.gc_num_epochs_to_keep_m ⟨2, 100, 1⟩ = 3
    ∧ GCConfig.gc_num_epochs_to_keep_m ⟨2, 100, 7⟩ = 7 :=
  ⟨(claim_gc_num_epochs_to_keep_clamped ⟨2, 100, 1⟩).2.2.1 (by decide),
   (claim_gc_num_epochs_to_keep_clamped ⟨2, 100, 7⟩).2.2.2 (by decide)⟩

/-- C8: `genesis_hash` maps "mainnet"/"testnet"/"betanet" to the bs58 parses
of their literals (all valid 32-byte hashes, so the `unwrap` cannot panic)
and every other chain id to the zero (default) hash. -/
theorem claim_genesis_hash_table :
    genesis_hash "mainnet" = some mainnetHash
    ∧ genesis_hash "testnet" = some testnetHash
    ∧ genesis_hash "betanet" = some betanetHash
    ∧ mainnetHash.length = 32 ∧ testnetHash.length = 32 ∧ betanetHash.length = 32
    ∧ ∀ s : String, s ≠ "mainnet" → s ≠ "testnet" → s ≠ "betanet" →
        genesis_hash s = some zeroHash := by
  refine ⟨by decide, by decide, by decide, by decide, by decide, by decide, ?_⟩
  intro s h1 h2 h3
  unfold genesis_hash
  split <;> simp_all

/-- C8 witness: an unknown chain id yields the zero hash. -/
theorem claim_genesis_hash_table_witness :
    genesis_hash "unknown" = some zeroHash :=
  claim_genesis_hash_table.2.2.2.2.2.2 "unknown" (by decide) (by decide) (by decide)

/-- C2: after the transport ack arrives, `keep_sending` bumps `msgs_sent` and
waits `request_timeout` (10 s as configured by `Network::new`) on
`NoResponse`; bumps `msgs_send_failures` and proceeds without waiting on
`RouteNotFound`; returns an error tagged with any other ack, terminating
the loop. -/
theorem claim_keep_sending_ack_handling (rt : Nat) (s : SendStats) (tag : Nat) :
    keep_sending_step rt s .noResponse
      = ({ s with msgs_sent := s.msgs_sent + 1 }, .waitThenNext rt)
    ∧ keep_sending_step rt s .routeNotFound
      = ({ s with msgs_send_failures := s.msgs_send_failures + 1 }, .nextNoWait)
    ∧ keep_sending_step rt s (.otherAck tag) = (s, .errorReturn tag)
    ∧ new_request_timeout_secs = 10 :=
  ⟨rfl, rfl, rfl, rfl⟩

/-- C7: the request builder of `fetch_chunk` targets exactly the given peer,
carries the chunk hash, fills `part_ords` with the full range
`0..parts_per_chunk` (so `[0, 1, 2, 3]` for `parts_per_chunk = 4`) and an
empty `tracking_shards` set. -/
theorem claim_fetch_chunk_part_ords (ppc : Nat) (ch : Hash) (peer : PeerId) :
    fetch_chunk_new_req ppc ch peer
      = .partialEncodedChunkRequest peer
          { chunk_hash := ch, part_ords := List.range ppc, tracking_shards := [] }
    ∧ (List.range ppc).length = ppc
    ∧ (∀ i, i < ppc → (List.range ppc).getD i 0 = i)
    ∧ fetch_chunk_new_req 4 ch peer
      = .partialEncodedChunkRequest peer
          { chunk_hash := ch, part_ords := [0, 1, 2, 3], tracking_shards := [] } := by
  refine ⟨rfl, List.length_range _, ?_, rfl⟩
  intro i hi
  simp [List.getD_eq_getElem?_getD, List.getElem?_range, hi]

/-- C7 witness: with `parts_per_chunk = 4` the emitted part ordinals are
exactly `[0, 1, 2, 3]`. -/
theorem claim_fetch_chunk_part_ords_witness :
    fetch_chunk_new_req 4 5 9
      = .partialEncodedChunkRequest 9
          { chunk_hash := 5, part_ords := [0, 1, 2, 3], tracking_shards := [] }
    ∧ (List.range 4).getD 2 0 = 2 :=
  ⟨(claim_fetch_chunk_part_ords 4 5 9).2.2.2,
   (claim_fetch_chunk_part_ords 4 5 9).2.2.1 2 (by decide)⟩

/-- C1: overlapping callers of `fetch_X(k)` linearize into atomic
`get_or_insert` operations on the weak map: on a miss the factory runs
exactly once and every caller receives a handle to the same request; on
that request's `Once`, only the first `set` succeeds, the stored value is
the first payload, and `wait` hands that identical payload to every
caller. -/
theorem claim_fetch_request_coalescing (st : WMState) (k : Hash) (n : Nat) (v : Nat)
    (vs : List Nat) (habsent : st.entries.lookup k = none) :
    (run_callers st k (n + 1)).2.factory_calls = st.factory_calls + 1
    ∧ (∀ r ∈ (run_callers st k (n + 1)).1, r = st.next_id)
    ∧ once_set_all (none : Option Nat) (v :: vs) = (some v, 1)
    ∧ once_wait (once_set_all (none : Option Nat) (v :: vs)).1 = some v := by
  have hstep : get_or_insert st k
      = (st.next_id,
          ⟨st.entries ++ [(k, st.next_id)], st.next_id + 1, st.factory_calls + 1⟩) := by
    simp [get_or_insert, habsent]
  have hlook : (st.entries ++ [(k, st.next_id)]).lookup k = some st.next_id :=
    lookup_append_absent _ _ _ habsent
  have hrest := run_callers_hit
    ⟨st.entries ++ [(k, st.next_id)], st.next_id + 1, st.factory_calls + 1⟩ k st.next_id
    hlook n
  refine ⟨?_, ?_, ?_, ?_⟩
  · simp [run_callers, hstep, hrest]
  · intro r hr
    simp only [run_callers, hstep, hrest] at hr
    rcases List.mem_cons.mp hr with h | h
    · exact h
    · exact List.eq_of_mem_replicate h
  · simp [once_set_all, once_set, once_set_all_of_set]
  · simp [once_wait, once_set_all, once_set, once_set_all_of_set]

/-- C1 witness: three callers on an empty map invoke the factory once and
all get request id 0; of two `set` attempts only the first succeeds. -/
theorem claim_fetch_request_coalescing_witness :
    (run_callers ⟨[], 0, 0⟩ 5 3).2.factory_calls = 0 + 1
    ∧ once_set_all (none : Option Nat) [10, 11] = (some 10, 1) := by
  have h := claim_fetch_request_coalescing ⟨[], 0, 0⟩ 5 2 10 [11] rfl
  exact ⟨h.1, h.2.2.1⟩

/-- C9 counterexample: the `AnnounceAccount` arm of the view-client handler
returns `NoResponse` without logging any name, so "every other view-client
message kind ... (logging a name for observability)" fails at this input:
the emitted log-line list is empty. -/
theorem claim_view_client_counterexample :
    fake_client_handle "mainnet" .announceAccount
      = some (.noResponse, ([] : List String)) := rfl

/-- C9 (amended): `GetChainInfo` returns the canned `ChainInfo` built from
the configured chain id and `genesis_hash(chain_id)` with height 0, empty
tracked shards and `archival = false`; every other message kind returns
`NoResponse`, logging a name for observability except `AnnounceAccount`,
which returns without logging. -/
theorem claim_view_client_handler (chain_id : String) :
    (∀ gh, genesis_hash chain_id = some gh →
      fake_client_handle chain_id .getChainInfo
        = some (.chainInfo { chain_id := chain_id, hash := gh } 0 [] false, []))
    ∧ fake_client_handle chain_id .announceAccount = some (.noResponse, [])
    ∧ (∀ msg, msg ≠ ViewMsg.getChainInfo → msg ≠ ViewMsg.announceAccount →
        fake_client_handle chain_id msg
          = some (.noResponse, ["view_request: " ++ viewMsgName msg])) := by
  refine ⟨?_, rfl, ?_⟩
  · intro gh h
    simp [fake_client_handle, h]
  · intro msg h1 h2
    cases msg <;> first
      | rfl
      | exact absurd rfl h1
      | exact absurd rfl h2

/-- C9 witness: on chain "mainnet", `GetChainInfo` yields the mainnet
genesis id at height 0, and `TxStatus` yields `NoResponse` with its name
logged. -/
theorem claim_view_client_handler_witness :
    fake_client_handle "mainnet" .getChainInfo
      = some (.chainInfo { chain_id := "mainnet", hash := mainnetHash } 0 [] false, [])
    ∧ fake_client_handle "mainnet" .txStatus
      = some (.noResponse, ["view_request: TxStatus"]) := by
  have h := claim_view_client_handler "mainnet"
  exact ⟨h.1 mainnetHash (by decide), h.2.2 .txStatus (by decide) (by decide)⟩

/-- C4: `add_response_time(send_times, responder)` performs exactly: under
the requests lock, bump `requests`, add `sends` to `total_sends`, and add
`now - min(times.values)` to `total_latency` iff at least one send
happened; then, with that lock released, under the peers lock bump
`requests` for every peer present in `times`, and bump the responder's
`responses` — adding its latency when `latency(responder)` is present,
else only warning; it never panics on an unmatched response (the unmatched
branch still produces a result, with the warning flag set). -/
theorem claim_add_response_time (m : PeerStatsMap) (st : SendTimes) (peer : PeerId)
    (now : Nat) (hnd : st.get_peers.Nodup) :
    (m.add_response_time st peer now).1.requests.requests = m.requests.requests + 1
    ∧ (m.add_response_time st peer now).1.requests.total_sends
        = m.requests.total_sends + st.sends
    ∧ (st.times = [] →
        (m.add_response_time st peer now).1.requests.total_latency
          = m.requests.total_latency)
    ∧ (∀ t, (st.times.map Prod.snd).min? = some t →
        (m.add_response_time st peer now).1.requests.total_latency
          = m.requests.total_latency + (now - t))
    ∧ (st.times ≠ [] → ∃ t, (st.times.map Prod.snd).min? = some t
        ∧ ∀ u ∈ st.times.map Prod.snd, t ≤ u)
    ∧ (∀ p, (statsAt (m.add_response_time st peer now).1.peers p).requests
        = (statsAt m.peers p).requests + (if p ∈ st.get_peers then 1 else 0))
    ∧ (statsAt (m.add_response_time st peer now).1.peers peer).responses
        = (statsAt m.peers peer).responses + 1
    ∧ (∀ l, st.latency peer now = some l →
        (statsAt (m.add_response_time st peer now).1.peers peer).total_latency
          = (statsAt m.peers peer).total_latency + l
        ∧ (m.add_response_time st peer now).2 = false)
    ∧ (st.latency peer now = none →
        (statsAt (m.add_response_time st peer now).1.peers peer).total_latency
          = (statsAt m.peers peer).total_latency
        ∧ (m.add_response_time st peer now).2 = true) := by
  refine ⟨?_, ?_, ?_, ?_, ?_, ?_, ?_, ?_, ?_⟩
  · rw [arp_requests_eq]
  · rw [arp_requests_eq]
  · intro h
    rw [arp_requests_eq]
    simp [h]
  · intro t ht
    rw [arp_requests_eq]
    simp [ht]
  · intro h
    refine min?_nonempty_spec _ ?_
    simpa using h
  · intro p
    rw [arp_peers_eq, statsAt_updateEntry]
    by_cases hp : p = peer
    · subst hp
      rw [if_pos rfl]
      rcases hl : st.latency p now with _ | l <;>
        · simp only [hl]
          rw [statsAt_foldl_bump _ _ _ hnd]
          split <;> simp
    · rw [if_neg hp, statsAt_foldl_bump _ _ _ hnd]
      split <;> simp
  · rw [arp_peers_eq, statsAt_updateEntry, if_pos rfl]
    rcases hl : st.latency peer now with _ | l <;>
      · simp only [hl]
        simp [(statsAt_foldl_bump_other st.get_peers m.peers peer hnd).1]
  · intro l hl
    refine ⟨?_, ?_⟩
    · rw [arp_peers_eq, statsAt_updateEntry, if_pos rfl]
      simp only [hl]
      simp [(statsAt_foldl_bump_other st.get_peers m.peers peer hnd).2]
    · rw [arp_warned_eq, hl]
      rfl
  · intro hl
    refine ⟨?_, ?_⟩
    · rw [arp_peers_eq, statsAt_updateEntry, if_pos rfl]
      simp only [hl]
      simp [(statsAt_foldl_bump_other st.get_peers m.peers peer hnd).2]
    · rw [arp_warned_eq, hl]
      rfl

/-- C4 witness: a concrete map, a `SendTimes` with two recorded sends, and a
responder that did receive a send: its latency `10 - 4 = 6` is recorded and
no warning fires; and for a responder without a recorded send the warning
fires. -/
theorem claim_add_response_time_witness :
    (statsAt ((PeerStatsMap.add_response_time ⟨⟨0, 0, 0⟩, []⟩ ⟨2, [(3, 4), (8, 7)]⟩ 3 10).1.peers) 3).total_latency
      = (statsAt ([] : List (PeerId × PeerStats)) 3).total_latency + 6
    ∧ (PeerStatsMap.add_response_time ⟨⟨0, 0, 0⟩, []⟩ ⟨2, [(3, 4), (8, 7)]⟩ 3 10).2 = false
    ∧ (PeerStatsMap.add_response_time ⟨⟨0, 0, 0⟩, []⟩ ⟨2, [(3, 4), (8, 7)]⟩ 9 10).2 = true := by
  have h1 := claim_add_response_time ⟨⟨0, 0, 0⟩, []⟩ ⟨2, [(3, 4), (8, 7)]⟩ 3 10 (by decide)
  have h2 := claim_add_response_time ⟨⟨0, 0, 0⟩, []⟩ ⟨2, [(3, 4), (8, 7)]⟩ 9 10 (by decide)
  obtain ⟨hlat, hwarn⟩ := h1.2.2.2.2.2.2.2.1 6 (by decide)
  exact ⟨hlat, hwarn, (h2.2.2.2.2.2.2.2.2 (by decide)).2⟩

/-- C3: for an inbound `BlockHeaders(headers, peer_id)`: an empty batch
looks up and resolves nothing (only `msgs_recv` is bumped); a non-empty
batch has a minimum-height header, whose `prev_hash` is the lookup key in
the `block_headers` weak map; on a hit `once.set(headers)` is attempted,
and the response time is recorded against `peer_id` exactly when that set
succeeds. -/
theorem claim_notify_block_headers (s : NetworkState) (hs : List Header) (peer : PeerId)
    (now : Nat) (hkeys : (s.block_headers.map Prod.fst).Nodup) :
    (notify s (.blockHeaders [] peer) now = some { s with msgs_recv := s.msgs_recv + 1 })
    ∧ (hs ≠ [] → ∃ hmin, min_by_height hs = some hmin ∧ hmin ∈ hs
        ∧ ∀ h ∈ hs, hmin.height ≤ h.height)
    ∧ (∀ hmin, min_by_height hs = some hmin →
        (s.block_headers.lookup hmin.prev_hash = none →
          notify s (.blockHeaders hs peer) now = some { s with msgs_recv := s.msgs_recv + 1 })
        ∧ (∀ r, s.block_headers.lookup hmin.prev_hash = some r →
            (r.once = none →
              notify s (.blockHeaders hs peer) now
                = some { s with
                    msgs_recv := s.msgs_recv + 1
                    block_headers :=
                      updateReq s.block_headers hmin.prev_hash { r with once := some hs }
                    stats_peers := (s.stats_peers.add_response_time r.send_times peer now).1
                    warnings := s.warnings +
                      (if (s.stats_peers.add_response_time r.send_times peer now).2
                       then 1 else 0) })
            ∧ (∀ v, r.once = some v →
                notify s (.blockHeaders hs peer) now
                  = some { s with msgs_recv := s.msgs_recv + 1 }))) := by
  refine ⟨rfl, min_by_height_spec hs, ?_⟩
  intro hmin hm
  constructor
  · intro hnone
    simp [notify, hm, hnone]
  · intro r hr
    constructor
    · intro honce
      rcases harp : s.stats_peers.add_response_time r.send_times peer now with ⟨sp', warned⟩
      simp [notify, hm, hr, resolveOnce, honce, harp]
    · intro v hv
      simp [notify, hm, hr, resolveOnce, hv, updateReq_self s.block_headers _ _ hkeys hr]

/-- C3 witness: a two-header batch whose minimum-height header has
`prev_hash = 11`; the live request under key 11 resolves with the batch,
the responder's latency `10 - 0 = 10` is recorded, and no warning fires. -/
theorem claim_notify_block_headers_witness :
    notify
      { msgs_recv := 0, stats_peers := ⟨⟨0, 0, 0⟩, []⟩, blocks := []
        block_headers := [(11, ⟨⟨1, [(2, 0)]⟩, none⟩)], chunks := []
        info_ := ⟨0, 0⟩, info_futures := [], min_peers := 0, delivered := [], warnings := 0 }
      (.blockHeaders [⟨5, 11⟩, ⟨9, 12⟩] 2) 10
    = some
      { msgs_recv := 1
        stats_peers :=
          (PeerStatsMap.add_response_time ⟨⟨0, 0, 0⟩, []⟩ ⟨1, [(2, 0)]⟩ 2 10).1
        blocks := []
        block_headers :=
          updateReq [(11, ⟨⟨1, [(2, 0)]⟩, none⟩)] 11 ⟨⟨1, [(2, 0)]⟩, some [⟨5, 11⟩, ⟨9, 12⟩]⟩
        chunks := []
        info_ := ⟨0, 0⟩, info_futures := [], min_peers := 0, delivered := [], warnings := 0 } := by
  have h := claim_notify_block_headers
    { msgs_recv := 0, stats_peers := ⟨⟨0, 0, 0⟩, []⟩, blocks := []
      block_headers := [(11, ⟨⟨1, [(2, 0)]⟩, none⟩)], chunks := []
      info_ := ⟨0, 0⟩, info_futures := [], min_peers := 0, delivered := [], warnings := 0 }
    [⟨5, 11⟩, ⟨9, 12⟩] 2 10 (by decide)
  have h2 := ((h.2.2 ⟨5, 11⟩ (by decide)).2 ⟨⟨1, [(2, 0)]⟩, none⟩ (by decide)).1 rfl
  simpa using h2

/-- C5: with a live request for a key, delivering two payloads for that key
in sequence resolves the `Once` with the first payload only: the second
delivery leaves the stored value, the peer stats and the warnings
untouched, while `msgs_recv` still counts both deliveries. -/
theorem claim_notify_second_delivery_noop (s : NetworkState) (b b2 : BlockM)
    (peer1 peer2 : PeerId) (now1 now2 : Nat) (r : RequestM BlockM)
    (hlookup : s.blocks.lookup b.hash = some r)
    (honce : r.once = none)
    (hb2 : b2.hash = b.hash) :
    ∃ s1, notify s (.block b peer1) now1 = some s1
      ∧ s1.msgs_recv = s.msgs_recv + 1
      ∧ s1.blocks.lookup b.hash = some { r with once := some b }
      ∧ s1.stats_peers = (s.stats_peers.add_response_time r.send_times peer1 now1).1
      ∧ notify s1 (.block b2 peer2) now2 = some { s1 with msgs_recv := s1.msgs_recv + 1 } := by
  rcases harp : s.stats_peers.add_response_time r.send_times peer1 now1 with ⟨sp', warned⟩
  have hsome : (s.blocks.lookup b.hash).isSome := by simp [hlookup]
  have hlook1 : (updateReq s.blocks b.hash { r with once := some b }).lookup b.hash
      = some { r with once := some b } := lookup_updateReq _ _ _ hsome
  refine ⟨{ s with
      msgs_recv := s.msgs_recv + 1
      blocks := updateReq s.blocks b.hash { r with once := some b }
      stats_peers := sp'
      warnings := s.warnings + (if warned then 1 else 0) }, ?_, rfl, ?_, ?_, ?_⟩
  · simp [notify, hlookup, resolveOnce, honce, harp]
  · simpa using hlook1
  · simp [harp]
  · have hlook2 : (updateReq s.blocks b.hash { r with once := some b }).lookup b2.hash
        = some { r with once := some b } := hb2 ▸ hlook1
    simp only [notify, hlook2]
    simp [resolveOnce, hb2, updateReq_idem]

/-- C5 witness: a state with one live block request under key 7; the first
delivery stores the block with body 42, the second (body 43) only bumps
`msgs_recv`. -/
theorem claim_notify_second_delivery_noop_witness :
    ∃ s1, notify
        { msgs_recv := 0, stats_peers := ⟨⟨0, 0, 0⟩, []⟩
          blocks := [(7, ⟨⟨0, []⟩, none⟩)], block_headers := [], chunks := []
          info_ := ⟨0, 0⟩, info_futures := [], min_peers := 0, delivered := [], warnings := 0 }
        (.block ⟨7, 42⟩ 3) 1 = some s1
      ∧ s1.msgs_recv = 0 + 1
      ∧ s1.blocks.lookup 7 = some ⟨⟨0, []⟩, some ⟨7, 42⟩⟩
      ∧ s1.stats_peers = (PeerStatsMap.add_response_time ⟨⟨0, 0, 0⟩, []⟩ ⟨0, []⟩ 3 1).1
      ∧ notify s1 (.block ⟨7, 43⟩ 4) 2 = some { s1 with msgs_recv := s1.msgs_recv + 1 } :=
  claim_notify_second_delivery_noop _ ⟨7, 42⟩ ⟨7, 43⟩ 3 4 1 2 ⟨⟨0, []⟩, none⟩
    (by decide) rfl rfl

/-- Base state for the C6 scenario: one configured minimum peer, nobody
connected yet, nothing queued. -/
def c6_base : NetworkState :=
  { msgs_recv := 0, stats_peers := ⟨⟨0, 0, 0⟩, []⟩, blocks := [], block_headers := []
    chunks := [], info_ := ⟨0, 0⟩, info_futures := [], min_peers := 1
    delivered := [], warnings := 0 }

/-- C6 counterexample: a caller of `info` queues (too few peers), its ctx
cancels (dropping the oneshot receiver), and a subsequent
`notify(NetworkInfo)` with `num_connected_peers ≥ min_peers` does NOT
complete normally: the `s.send(..).unwrap()` in the drain panics (embedded
as `none`) on the dropped receiver. -/
theorem claim_info_drain_counterexample :
    notify (cancel_waiter (info_call c6_base 0).1 0) (.networkInfo ⟨1, 99⟩) 5 = none := by
  decide

/-- C6 (amended): a queued `info` caller whose ctx cancels is released
without delivery, but its oneshot sender stays in `info_futures`; a
subsequent `notify(NetworkInfo)` with enough connected peers drains the
queue delivering the new snapshot to every waiter when all queued
receivers are still live, and panics at the `unwrap` when any queued
receiver has been dropped. -/
theorem claim_info_drain_amended (s : NetworkState) (i : NetworkInfoM) (now wid : Nat) :
    (s.info_.num_connected_peers < s.min_peers →
      (info_call s wid).2 = none
      ∧ (info_call s wid).1.info_futures = s.info_futures ++ [⟨wid, true⟩])
    ∧ (cancel_waiter s wid).delivered = s.delivered
    ∧ (cancel_waiter s wid).info_futures.length = s.info_futures.length
    ∧ (s.min_peers ≤ i.num_connected_peers →
        (∀ w ∈ s.info_futures, w.alive = true) →
        notify s (.networkInfo i) now
          = some { s with
              msgs_recv := s.msgs_recv + 1, info_ := i, info_futures := []
              delivered := s.delivered ++ s.info_futures.map (fun w => (w.id, i)) })
    ∧ (s.min_peers ≤ i.num_connected_peers →
        (∃ w ∈ s.info_futures, w.alive = false) →
        notify s (.networkInfo i) now = none) := by
  refine ⟨?_, by simp [cancel_waiter], by simp [cancel_waiter], ?_, ?_⟩
  · intro h
    have hno : ¬ s.min_peers ≤ s.info_.num_connected_peers := Nat.not_le.mpr h
    simp [info_call, hno]
  · intro h1 h2
    have hno : ¬ i.num_connected_peers < s.min_peers := Nat.not_lt.mpr h1
    simp [notify, hno, deliverAll_all_alive i s.info_futures h2]
  · intro h1 h2
    have hno : ¬ i.num_connected_peers < s.min_peers := Nat.not_lt.mpr h1
    simp [notify, hno, deliverAll_dropped i s.info_futures h2]

/-- C6 amended witness: with two live queued waiters and a snapshot with
enough peers, the drain delivers the snapshot to both and empties the
queue; and queueing then cancelling releases the caller without delivery. -/
theorem claim_info_drain_amended_witness :
    notify { c6_base with info_futures := [⟨4, true⟩, ⟨6, true⟩] } (.networkInfo ⟨2, 5⟩) 3
      = some { c6_base with
          msgs_recv := 1, info_ := ⟨2, 5⟩, info_futures := []
          delivered := [(4, ⟨2, 5⟩), (6, ⟨2, 5⟩)] }
    ∧ (info_call c6_base 0).2 = none := by
  have h := claim_info_drain_amended
    { c6_base with info_futures := [⟨4, true⟩, ⟨6, true⟩] } ⟨2, 5⟩ 3 0
  have h2 := claim_info_drain_amended c6_base ⟨0, 0⟩ 0 0
  refine ⟨?_, (h2.1 (by decide)).1⟩
  have := h.2.2.2.1 (by decide) (by decide)
  simpa [c6_base] using this

end ChainsyncLoadtest
